import Mathlib

/-!
# Verification of the `musicbox` catalog parser

Shallow embedding of `src/musicbox.rs` (a line-oriented music-catalog
parser) and proofs about it.

Modelling conventions:
* Rust `u16` values are `Nat`s; arithmetic that the source performs on
  `u16` carries an explicit `≤ 65535` overflow check.  An arithmetic
  overflow or a failed `unwrap()`/out-of-bounds index aborts the Rust
  program with a panic; fallible Lean counterparts return `none`
  (or `ParseOutcome.panicked`) in exactly those situations.
* `Regex::new(p).split(s)` for the fixed patterns of the source
  (`":"`, `" : "`, `\s{1}-\s{1}`) is modelled by `splitOn1` and
  `splitOn3`, leftmost non-overlapping splits on per-character
  predicates; `\s` is modelled by `Char.isWhitespace`.
* `BufReader::lines` is external I/O; the parse operation takes the
  file's contents as the list of its lines (newlines stripped).
-/

set_option autoImplicit false

/-- Holds a single Song (`struct Song` in the source): a name, an
artist and a length in seconds (`u16`). -/
structure Song where
  name : String
  artist : String
  length : Nat
deriving DecidableEq, Repr

/-- Holds a single Album (`struct Album`): a name, an artist, and the
ordered list of its `Song`s. -/
structure Album where
  name : String
  artist : String
  songs : List Song
deriving DecidableEq, Repr

/-- Holds several Albums (`struct Collection`): a `u16` length field
and the ordered list of `Album`s. -/
structure Collection where
  length : Nat
  albums : List Album
deriving DecidableEq, Repr

/-- The one error of the source's `custom_error! SearchError`. -/
inductive SearchError where
  | not_found
deriving DecidableEq, Repr

/-- Rust `Song::new(n, a, l)`. -/
def Song.new (n : String) (a : String) (l : Nat) : Song :=
  { name := n, artist := a, length := l }

/-- Rust `Album::new(n, a)`: an album with an empty song vector. -/
def Album.new (n : String) (a : String) : Album :=
  { name := n, artist := a, songs := [] }

/-- Rust `Album::add(song)`: `self.songs.push(x)`. -/
def Album.add (alb : Album) (x : Song) : Album :=
  { alb with songs := alb.songs ++ [x] }

/-- Rust `Collection::new()`: length 0, no albums. -/
def Collection.new : Collection :=
  { length := 0, albums := [] }

/-- The effect of `self.albums.push(x)` alone.  In `Collection::add`
the push happens before the `u16` increment, so this is the state the
collection is left in when the increment overflows and panics. -/
def Collection.push (c : Collection) (x : Album) : Collection :=
  { c with albums := c.albums ++ [x] }

/-- Rust `Collection::add(x)`: push the album, then `self.length += 1` on a
`u16`.  The increment overflows (and, with the default debug-profile
overflow checks, panics) when `length` is already 65535: that case is
`none`. -/
def Collection.add (c : Collection) (x : Album) : Option Collection :=
  if c.length + 1 ≤ 65535 then
    some { length := c.length + 1, albums := c.albums ++ [x] }
  else
    none

/-- Linear scan of `Collection::find_album` over a list of albums. -/
def findAlbumIn (name : String) : List Album → Except SearchError Album
  | [] => .error .not_found
  | a :: rest => if a.name = name then .ok a else findAlbumIn name rest

/-- Rust `Collection::find_album(name)`: first album whose `name` field
equals the query (string equality, case-sensitive), else
`SearchError::not_found`. -/
def Collection.find_album (c : Collection) (name : String) :
    Except SearchError Album :=
  findAlbumIn name c.albums

/-- Does the predicate sequence `pat` match the chars at the front of
`l` (one predicate per char, in order)? -/
def matchesAt : List (Char → Bool) → List Char → Bool
  | [], _ => true
  | _ :: _, [] => false
  | p :: ps, c :: cs => p c && matchesAt ps cs

/-- Does `pat` match at some position of `l`?  Models
`Regex::is_match` for the source's fixed-width patterns. -/
def containsPat (pat : List (Char → Bool)) : List Char → Bool
  | [] => matchesAt pat []
  | c :: cs => matchesAt pat (c :: cs) || containsPat pat (cs : List Char)

/-- Leftmost split of `l` at every char matching `p`.  Models
`Regex::split` for a single-char pattern: a match separates two
pieces, adjacent or boundary matches produce empty pieces, and a
string without a match is one piece. -/
def splitOn1 (p : Char → Bool) : List Char → List (List Char)
  | [] => [[]]
  | c :: cs =>
    if p c then
      [] :: splitOn1 p cs
    else
      match splitOn1 p cs with
      | [] => [[c]]
      | piece :: more => (c :: piece) :: more

/-- Leftmost non-overlapping split of `l` at every three consecutive
chars matching `p1`, `p2`, `p3`.  Models `Regex::split` for the
source's three-char patterns (`" : "` and `\s{1}-\s{1}`). -/
def splitOn3 (p1 p2 p3 : Char → Bool) : List Char → List (List Char)
  | [] => [[]]
  | [c1] => [[c1]]
  | [c1, c2] => [[c1, c2]]
  | c1 :: c2 :: c3 :: cs =>
    if p1 c1 && p2 c2 && p3 c3 then
      [] :: splitOn3 p1 p2 p3 cs
    else
      match splitOn3 p1 p2 p3 (c2 :: c3 :: cs) with
      | [] => [[c1]]
      | piece :: more => (c1 :: piece) :: more

/-- Split on the regex `":"` (used by `to_seconds`). -/
def splitColon (s : String) : List String :=
  (splitOn1 (fun c => c == ':') s.data).map String.mk

/-- Split on the regex `" : "` (used for header lines). -/
def splitHeader (s : String) : List String :=
  (splitOn3 (fun c => c == ' ') (fun c => c == ':') (fun c => c == ' ')
    s.data).map String.mk

/-- Split on the regex `\s{1}-\s{1}` (used for track lines). -/
def splitTrack (s : String) : List String :=
  (splitOn3 (fun c => c.isWhitespace) (fun c => c == '-')
    (fun c => c.isWhitespace) s.data).map String.mk

/-- The test `Regex::new(r" - ").is_match(&nextLine)` that classifies
a line as a track line. -/
def isTrackLine (line : String) : Bool :=
  containsPat
    [fun c => c == ' ', fun c => c == '-', fun c => c == ' ']
    line.data

/-- One step of decimal accumulation: the value so far times ten plus
the digit value of the next char. -/
def decVal (acc : Nat) (c : Char) : Nat :=
  acc * 10 + (c.toNat - 48)

/-- Semantics of Rust's `str::parse::<u16>()` on a digit run: one or
more ASCII digits whose value fits in a `u16`; every other input is
`none` (an `Err`). -/
def parseDigits (ds : List Char) : Option Nat :=
  match ds with
  | [] => none
  | _ :: _ =>
    if ds.all Char.isDigit then
      if ds.foldl decVal 0 ≤ 65535 then some (ds.foldl decVal 0) else none
    else
      none

/-- Rust `str::parse::<u16>()` on a list of chars: strip one optional
leading `+`, then parse the digits. -/
def parseU16Chars : List Char → Option Nat
  | '+' :: rest => parseDigits rest
  | l => parseDigits l

/-- Rust `str::parse::<u16>()`. -/
def parseU16 (s : String) : Option Nat :=
  parseU16Chars s.data

/-- A checked `u16` intermediate result: `none` models the
debug-profile overflow panic. -/
def u16c (n : Nat) : Option Nat :=
  if n ≤ 65535 then some n else none

/-- The source's `to_seconds`: split the input on `":"`, parse fields
0, 1 and 2 as `u16` (`unwrap()`: a missing field or a failed parse is
a panic, `none`), then compute `v0 * 60 * 60 + v1 * 60 + v2` in
checked `u16` arithmetic (each intermediate is checked, as the
debug-profile overflow checks do).  Fields beyond the third are
ignored, exactly as in the source. -/
def to_seconds (time : String) : Option Nat :=
  let values := splitColon time
  ((values.get? 0).bind parseU16).bind fun v0 =>
  ((values.get? 1).bind parseU16).bind fun v1 =>
  ((values.get? 2).bind parseU16).bind fun v2 =>
  (u16c (v0 * 60)).bind fun a =>
  (u16c (a * 60)).bind fun b =>
  (u16c (v1 * 60)).bind fun m =>
  (u16c (b + m)).bind fun t =>
  u16c (t + v2)

/-- Big-endian decimal digits of `n` prepended to `acc`; the recursion
of Rust's `Display` for unsigned integers. -/
def decCharsAux (n : Nat) (acc : List Char) : List Char :=
  if n < 10 then Nat.digitChar n :: acc
  else decCharsAux (n / 10) (Nat.digitChar (n % 10) :: acc)
termination_by n
decreasing_by exact Nat.div_lt_self (by omega) (by omega)

/-- Plain decimal rendering of `n` (no padding, no sign), as produced
by `format!("{}", n)` for an unsigned integer. -/
def decChars (n : Nat) : List Char :=
  decCharsAux n []

/-- The source's `to_timestamp`: `format!("{}:{}:{}", seconds / 3600,
(seconds % 3600) / 60, (seconds % 3600) % 60)`. -/
def to_timestamp (seconds : Nat) : String :=
  let hours := seconds / 3600
  let minutes := (seconds % 3600) / 60
  let secs := (seconds % 3600) % 60
  String.mk (decChars hours ++ ':' :: (decChars minutes ++ ':' :: decChars secs))

/-- Outcome of the parse operation on a collection.  `parseFile` in
the source returns `()` and aborts by panicking on malformed input;
`panicked c` records the collection's state at the moment of the
panic (`parseFile` takes `&mut self`, so that state exists even
though the function never returns).  `formatError` is the error
channel the design documentation claims for malformed input; no code
path of the source produces it — it is declared here only so that
that claim can be stated and compared against the actual outcomes. -/
inductive ParseOutcome where
  | ok (c : Collection) (album : Album)
  | panicked (c : Collection)
  | formatError
deriving DecidableEq, Repr

/-- One iteration of the `for line in file.lines()` loop of
`Collection::parseFile`, acting on the collection (`self`) and the
current album accumulator.

Track branch (the line matches `" - "`): split on `\s{1}-\s{1}`,
build `Song::new(data[1], "DEFALT", to_seconds(data[0]))` — indexing
`data[1]` panics if the split has fewer than two pieces, and
`to_seconds` panics on a malformed duration — and push it onto the
accumulator.

Header branch (anything else): `self.add(album)` first, then split on
`" : "` and replace the accumulator by
`Album::new(data[1], data[0])`; indexing `data[1]` panics when the
separator is absent. -/
def parseStep (c : Collection) (album : Album) (line : String) :
    ParseOutcome :=
  if isTrackLine line then
    let data := splitTrack line
    match data.get? 1 with
    | none => .panicked c
    | some nm =>
      match data.get? 0 with
      | none => .panicked c
      | some dur =>
        match to_seconds dur with
        | none => .panicked c
        | some len => .ok c (album.add (Song.new nm "DEFALT" len))
  else
    match c.add album with
    | none => .panicked (c.push album)
    | some c2 =>
      let data := splitHeader line
      match data.get? 1 with
      | none => .panicked c2
      | some nm =>
        match data.get? 0 with
        | none => .panicked c2
        | some art => .ok c2 (Album.new nm art)

/-- The `for` loop of `Collection::parseFile` over the remaining
lines: thread the collection and the accumulator through `parseStep`,
propagating a panic. -/
def parseLines (c : Collection) (album : Album) :
    List String → ParseOutcome
  | [] => .ok c album
  | line :: rest =>
    match parseStep c album line with
    | .ok c2 a2 => parseLines c2 a2 rest
    | .panicked c2 => .panicked c2
    | .formatError => .formatError

/-- Rust `Collection::parseFile` on the file's lines: initialise the
accumulator to the sentinel `Album::new("DEFAULT", "DEFALT")` and run
the loop.  The final accumulator is dropped when the loop ends; it is
returned inside `ParseOutcome.ok` so that its (non-)commitment can be
observed. -/
def Collection.parseFile (c : Collection) (lines : List String) :
    ParseOutcome :=
  parseLines c (Album.new "DEFAULT" "DEFALT") lines

/-- Number of decimal digits of `n` (helper for reasoning about
`decChars`). -/
def nlen (n : Nat) : Nat :=
  if n < 10 then 1 else nlen (n / 10) + 1
termination_by n
decreasing_by exact Nat.div_lt_self (by omega) (by omega)

/-- The example file of the source's documentation, truncated to two
tracks, followed by one further header line. -/
def hendrixLines : List String :=
  ["Jimi Hendrix Experience : Are You Experienced?",
   "0:03:22 - Foxy Lady",
   "0:03:46 - Manic Depression",
   "The Jimi Hendrix Experience : Axis"]

/-- The album the parse of `hendrixLines` commits. -/
def hendrixAlbum : Album :=
  { name := "Are You Experienced?",
    artist := "Jimi Hendrix Experience",
    songs := [Song.new "Foxy Lady" "DEFALT" 202,
              Song.new "Manic Depression" "DEFALT" 226] }

/-- The collection the parse of `hendrixLines` produces. -/
def hendrixCollection : Collection :=
  { length := 2, albums := [Album.new "DEFAULT" "DEFALT", hendrixAlbum] }

/-- Decidable equality for the result type of `find_album`. -/
instance : DecidableEq (Except SearchError Album) := fun x y =>
  match x, y with
  | .ok a, .ok b =>
    if h : a = b then .isTrue (by rw [h]) else .isFalse (by simp [h])
  | .error a, .error b => .isTrue (by cases a; cases b; rfl)
  | .ok _, .error _ => .isFalse (by simp)
  | .error _, .ok _ => .isFalse (by simp)

/-! ## Lemmas about the split primitive -/

/-- A list none of whose chars match a single-char pattern splits into
one piece. -/
theorem splitOn1_no_match (p0 : Char → Bool) (l : List Char)
    (h : ∀ c ∈ l, p0 c = false) : splitOn1 p0 l = [l] := by
  induction l with
  | nil => simp [splitOn1]
  | cons c cs ih =>
    have hc : p0 c = false := h c (by simp)
    have ih' : splitOn1 p0 cs = [cs] := ih (fun x hx => h x (by simp [hx]))
    simp [splitOn1, hc, ih']

/-- Splitting on a single-char pattern peels off the piece before the
first matching char. -/
theorem splitOn1_sep (p0 : Char → Bool) (sep : Char) (l1 l2 : List Char)
    (h1 : ∀ c ∈ l1, p0 c = false) (hsep : p0 sep = true) :
    splitOn1 p0 (l1 ++ sep :: l2) = l1 :: splitOn1 p0 l2 := by
  induction l1 with
  | nil => simp [splitOn1, hsep]
  | cons c t ih =>
    have hc : p0 c = false := h1 c (by simp)
    have ih' := ih (fun x hx => h1 x (by simp [hx]))
    simp [splitOn1, hc, ih']

/-! ## Lemmas about decimal rendering and parsing -/

/-- Facts about the char of a single decimal digit. -/
theorem digitChar_props (d : Nat) (h : d < 10) :
    (Nat.digitChar d).isDigit = true ∧ ((Nat.digitChar d) == ':') = false ∧
      (Nat.digitChar d ≠ '+') ∧ decVal 0 (Nat.digitChar d) = d := by
  interval_cases d <;> exact ⟨rfl, rfl, by decide, rfl⟩

/-- Unfolding equation of `decCharsAux`. -/
theorem decCharsAux_eq (n : Nat) (acc : List Char) :
    decCharsAux n acc =
      if n < 10 then Nat.digitChar n :: acc
      else decCharsAux (n / 10) (Nat.digitChar (n % 10) :: acc) := by
  rw [decCharsAux]

/-- The accumulator of `decCharsAux` is just appended to the digits. -/
theorem decCharsAux_append (n : Nat) :
    ∀ acc : List Char, decCharsAux n acc = decCharsAux n [] ++ acc := by
  induction n using Nat.strong_induction_on with
  | _ n ih =>
    intro acc
    by_cases h : n < 10
    · rw [decCharsAux_eq n acc, decCharsAux_eq n [], if_pos h, if_pos h]
      simp
    · rw [decCharsAux_eq n acc, decCharsAux_eq n [], if_neg h, if_neg h]
      have hlt : n / 10 < n := Nat.div_lt_self (by omega) (by omega)
      have h1 := ih (n / 10) hlt (Nat.digitChar (n % 10) :: acc)
      have h2 := ih (n / 10) hlt (Nat.digitChar (n % 10) :: [])
      rw [h1, h2]
      simp

/-- Every char of `decChars n` is a decimal digit char; the list is
nonempty, and contains neither `':'` nor `'+'`. -/
theorem decChars_props (n : Nat) :
    decChars n ≠ [] ∧ ∀ c ∈ decChars n,
      c.isDigit = true ∧ (c == ':') = false ∧ c ≠ '+' := by
  induction n using Nat.strong_induction_on with
  | _ n ih =>
    by_cases h : n < 10
    · rw [decChars, decCharsAux, if_pos h]
      refine ⟨by simp, ?_⟩
      intro c hc
      rcases List.mem_singleton.mp hc with rfl
      obtain ⟨h1, h2, h3, _⟩ := digitChar_props n h
      exact ⟨h1, h2, h3⟩
    · rw [decChars, decCharsAux, if_neg h, decCharsAux_append]
      have hd := ih (n / 10) (Nat.div_lt_self (by omega) (by omega))
      refine ⟨by simp [hd.1], ?_⟩
      intro c hc
      rcases List.mem_append.mp hc with hc' | hc'
      · exact hd.2 c hc'
      · rcases List.mem_singleton.mp hc' with rfl
        obtain ⟨h1, h2, h3, _⟩ := digitChar_props (n % 10) (Nat.mod_lt _ (by omega))
        exact ⟨h1, h2, h3⟩

/-- Folding `decVal` over the digits of `n` recovers `n` (shifted
under whatever was accumulated before). -/
theorem foldl_decCharsAux (n : Nat) :
    ∀ (i : Nat) (acc : List Char),
      List.foldl decVal i (decCharsAux n acc) =
        List.foldl decVal (i * 10 ^ nlen n + n) acc := by
  induction n using Nat.strong_induction_on with
  | _ n ih =>
    intro i acc
    by_cases h : n < 10
    · rw [decCharsAux, if_pos h, nlen, if_pos h]
      have hd := (digitChar_props n h).2.2.2
      simp only [List.foldl_cons]
      have : decVal i (Nat.digitChar n) = i * 10 ^ 1 + n := by
        simp [decVal] at hd ⊢
        omega
      rw [this]
    · rw [decCharsAux, if_neg h, nlen, if_neg h]
      rw [ih (n / 10) (Nat.div_lt_self (by omega) (by omega))]
      simp only [List.foldl_cons]
      have hd := (digitChar_props (n % 10) (Nat.mod_lt _ (by omega))).2.2.2
      have : decVal (i * 10 ^ nlen (n / 10) + n / 10) (Nat.digitChar (n % 10)) =
          i * 10 ^ (nlen (n / 10) + 1) + n := by
        simp [decVal] at hd ⊢
        rw [pow_succ]
        have := Nat.div_add_mod n 10
        nlinarith [Nat.div_add_mod n 10]
      rw [this]

/-- Folding the digits of `n` from zero gives back `n`. -/
theorem foldl_decChars (n : Nat) : List.foldl decVal 0 (decChars n) = n := by
  rw [decChars, foldl_decCharsAux]
  simp

/-- On a list that does not start with `'+'`, `parseU16Chars` is just
`parseDigits`. -/
theorem parseU16Chars_not_plus (c : Char) (cs : List Char) (hc : c ≠ '+') :
    parseU16Chars (c :: cs) = parseDigits (c :: cs) := by
  unfold parseU16Chars
  split
  · rename_i rest heq
    injection heq with h1 _
    exact absurd h1 hc
  · rfl

/-- Parsing with `str::parse::<u16>()` round-trips the decimal rendering
of any in-range value. -/
theorem parseU16_decChars (n : Nat) (h : n ≤ 65535) :
    parseU16Chars (decChars n) = some n := by
  obtain ⟨hne, hall⟩ := decChars_props n
  obtain ⟨c, cs, hcons⟩ := List.exists_cons_of_ne_nil hne
  have hplus : c ≠ '+' := (hall c (by rw [hcons]; simp)).2.2
  have hall' : (c :: cs).all Char.isDigit = true := by
    rw [← hcons]
    exact List.all_eq_true.mpr fun x hx => (hall x hx).1
  have hfold : (c :: cs).foldl decVal 0 = n := by
    rw [← hcons]; exact foldl_decChars n
  rw [hcons, parseU16Chars_not_plus c cs hplus]
  simp [parseDigits, hall', hfold, h]

/-! ## The timestamp codec -/

/-- Splitting a formatted timestamp on `':'` recovers the three
decimal fields. -/
theorem splitColon_timestamp (x : Nat) :
    splitColon (to_timestamp x) =
      [String.mk (decChars (x / 3600)), String.mk (decChars (x % 3600 / 60)),
       String.mk (decChars (x % 3600 % 60))] := by
  have hno : ∀ m : Nat, ∀ c ∈ decChars m, ((c == ':') : Bool) = false :=
    fun m c hc => ((decChars_props m).2 c hc).2.1
  show (splitOn1 (fun c => c == ':') (decChars (x / 3600) ++ ':' ::
      (decChars (x % 3600 / 60) ++ ':' :: decChars (x % 3600 % 60)))).map
      String.mk = _
  rw [splitOn1_sep _ _ _ _ (hno _) (by decide),
    splitOn1_sep _ _ _ _ (hno _) (by decide),
    splitOn1_no_match _ _ (hno _)]
  rfl

/-- Parsing a formatted timestamp recovers the encoded value
(shared kernel of the round-trip results). -/
theorem to_seconds_to_timestamp (x : Nat) (hx : x ≤ 65535) :
    to_seconds (to_timestamp x) = some x := by
  have hs := splitColon_timestamp x
  have p0 : parseU16 (String.mk (decChars (x / 3600))) = some (x / 3600) :=
    parseU16_decChars _ (by omega)
  have p1 : parseU16 (String.mk (decChars (x % 3600 / 60))) =
      some (x % 3600 / 60) := parseU16_decChars _ (by omega)
  have p2 : parseU16 (String.mk (decChars (x % 3600 % 60))) =
      some (x % 3600 % 60) := parseU16_decChars _ (by omega)
  have b1 : x / 3600 * 60 ≤ 65535 := by omega
  have b2 : x / 3600 * 60 * 60 ≤ 65535 := by omega
  have b3 : x % 3600 / 60 * 60 ≤ 65535 := by omega
  have b4 : x / 3600 * 60 * 60 + x % 3600 / 60 * 60 ≤ 65535 := by omega
  have b5 : x / 3600 * 60 * 60 + x % 3600 / 60 * 60 + x % 3600 % 60 = x := by
    omega
  simp [to_seconds, hs, p0, p1, p2, u16c, b1, b2, b3, b4, b5, hx, List.get?]

/-- Success characterization of `u16c`. -/
theorem u16c_eq_some (a b : Nat) : u16c a = some b ↔ a ≤ 65535 ∧ b = a := by
  unfold u16c
  split
  · rename_i hle
    simp [hle, eq_comm]
  · rename_i hgt
    simp at hgt
    simp
    omega

/-- Claim C4 (amended): `to_seconds` has no error return at all — on
malformed input it panics (`none`), never a `FormatError`.  It
succeeds exactly when the `':'`-split has at least three fields, the
first three fields parse as `u16`, and the total `H * 3600 + M * 60 +
S` fits in a `u16` (each checked intermediate is then also in range);
the result is that total.  Consequently a field count above three is
not rejected (the extra fields are ignored), and fewer than three
fields, an unparsable field among the first three, or an overflowing
total make it panic. -/
theorem to_seconds_eq_some_iff (time : String) (n : Nat) :
    to_seconds time = some n ↔
      ∃ v0 v1 v2 rest h m s,
        splitColon time = v0 :: v1 :: v2 :: rest
        ∧ parseU16 v0 = some h ∧ parseU16 v1 = some m ∧ parseU16 v2 = some s
        ∧ h * 3600 + m * 60 + s ≤ 65535
        ∧ n = h * 3600 + m * 60 + s := by
  constructor
  · intro he
    simp only [to_seconds] at he
    rcases Option.bind_eq_some.mp he with ⟨h', hh', he1⟩
    rcases Option.bind_eq_some.mp hh' with ⟨v0, hg0, hp0⟩
    rcases Option.bind_eq_some.mp he1 with ⟨m', hm', he2⟩
    rcases Option.bind_eq_some.mp hm' with ⟨v1, hg1, hp1⟩
    rcases Option.bind_eq_some.mp he2 with ⟨s', hs', he3⟩
    rcases Option.bind_eq_some.mp hs' with ⟨v2, hg2, hp2⟩
    rcases Option.bind_eq_some.mp he3 with ⟨a, ha, he4⟩
    rcases Option.bind_eq_some.mp he4 with ⟨b, hb, he5⟩
    rcases Option.bind_eq_some.mp he5 with ⟨mm, hmm, he6⟩
    rcases Option.bind_eq_some.mp he6 with ⟨t, ht, he7⟩
    rw [u16c_eq_some] at ha hb hmm ht he7
    rcases hl : splitColon time with _ | ⟨a0, _ | ⟨a1, _ | ⟨a2, rest⟩⟩⟩ <;>
      rw [hl] at hg0 hg1 hg2 <;> simp [List.get?] at hg0 hg1 hg2
    subst hg0; subst hg1; subst hg2
    exact ⟨a0, a1, a2, rest, h', m', s', rfl, hp0, hp1, hp2,
      by omega, by omega⟩
  · rintro ⟨v0, v1, v2, rest, h, m, s, hl, hp0, hp1, hp2, hb, hn⟩
    have b1 : h * 60 ≤ 65535 := by omega
    have b2 : h * 60 * 60 ≤ 65535 := by omega
    have b3 : m * 60 ≤ 65535 := by omega
    have b4 : h * 60 * 60 + m * 60 ≤ 65535 := by omega
    have b5 : h * 60 * 60 + m * 60 + s ≤ 65535 := by omega
    have hn' : h * 60 * 60 + m * 60 + s = n := by omega
    have b6 : n ≤ 65535 := by omega
    simp [to_seconds, hl, List.get?, hp0, hp1, hp2, u16c,
      b1, b2, b3, b4, b5, hn', b6]

/-! ## Lemmas about the catalog model -/

/-- A successful `Collection::add` appends the album and increments
the length by exactly one. -/
theorem Collection.add_eq_some (c : Collection) (x : Album) (c2 : Collection)
    (h : c.add x = some c2) :
    c2.albums = c.albums ++ [x] ∧ c2.length = c.length + 1 := by
  unfold Collection.add at h
  split at h
  · injection h with h'
    subst h'
    exact ⟨rfl, rfl⟩
  · exact absurd h (by simp)

/-- Rust `Collection::add` succeeds whenever the incremented length still
fits in a `u16`. -/
theorem Collection.add_of_le (c : Collection) (x : Album)
    (h : c.length + 1 ≤ 65535) :
    c.add x = some { length := c.length + 1, albums := c.albums ++ [x] } := by
  unfold Collection.add
  rw [if_pos h]

/-- A scan over albums none of which carry the queried name reports
`not_found`. -/
theorem findAlbumIn_not_found (name : String) (l : List Album)
    (h : ∀ b ∈ l, b.name ≠ name) :
    findAlbumIn name l = .error .not_found := by
  induction l with
  | nil => rfl
  | cons b r ih =>
    have hb : b.name ≠ name := h b (by simp)
    simp [findAlbumIn, hb, ih (fun x hx => h x (by simp [hx]))]

/-- The scan returns the first album carrying the queried name. -/
theorem findAlbumIn_first (name : String) (pre : List Album) (x : Album)
    (post : List Album) (hpre : ∀ b ∈ pre, b.name ≠ name)
    (hx : x.name = name) :
    findAlbumIn name (pre ++ x :: post) = .ok x := by
  induction pre with
  | nil => simp [findAlbumIn, hx]
  | cons b r ih =>
    have hb : b.name ≠ name := hpre b (by simp)
    simp [findAlbumIn, hb, ih (fun y hy => hpre y (by simp [hy]))]

/-! ## Lemmas about the parser loop -/

/-- A track line whose split and duration succeed appends exactly one
song (named by the second piece only) and touches nothing else. -/
theorem parseStep_track (c : Collection) (a : Album) (line : String)
    (dur nm : String) (rest : List String) (len : Nat)
    (ht : isTrackLine line = true)
    (hs : splitTrack line = dur :: nm :: rest)
    (hd : to_seconds dur = some len) :
    parseStep c a line = .ok c (a.add (Song.new nm "DEFALT" len)) := by
  simp [parseStep, ht, hs, hd, List.get?]

/-- A successful step on a track line leaves the collection untouched
and preserves the accumulator's name and artist. -/
theorem parseStep_track_inv (c : Collection) (a : Album) (line : String)
    (c2 : Collection) (a2 : Album)
    (ht : isTrackLine line = true)
    (h : parseStep c a line = .ok c2 a2) :
    c2 = c ∧ a2.name = a.name ∧ a2.artist = a.artist := by
  simp only [parseStep, ht, if_true] at h
  split at h
  · simp at h
  · split at h
    · simp at h
    · split at h
      · simp at h
      · injection h with h1 h2
        subst h1
        subst h2
        exact ⟨rfl, rfl, rfl⟩

/-- A header line first commits the current accumulator, then
re-initialises it from the split of the line (name after the
separator, artist before it). -/
theorem parseStep_header (c : Collection) (a : Album) (line : String)
    (c2 : Collection) (art nm : String) (rest : List String)
    (hh : isTrackLine line = false)
    (hs : splitHeader line = art :: nm :: rest)
    (hadd : c.add a = some c2) :
    parseStep c a line = .ok c2 (Album.new nm art) := by
  simp [parseStep, hh, hadd, hs, List.get?]

/-- A successful step on a header line can only have committed the
previous accumulator and reset the accumulator from the line's split. -/
theorem parseStep_header_inv (c : Collection) (a : Album) (line : String)
    (c2 : Collection) (a2 : Album)
    (hh : isTrackLine line = false)
    (h : parseStep c a line = .ok c2 a2) :
    c.add a = some c2 ∧
      ∃ art nm rest, splitHeader line = art :: nm :: rest
        ∧ a2 = Album.new nm art := by
  simp only [parseStep, hh, Bool.false_eq_true, if_false] at h
  split at h
  · simp at h
  · rename_i c' hadd
    split at h
    · simp at h
    · rename_i nm heq1
      split at h
      · simp at h
      · rename_i art heq0
        injection h with h1 h2
        subst h1
        subst h2
        refine ⟨hadd, ?_⟩
        rcases hl : splitHeader line with _ | ⟨x0, _ | ⟨x1, r⟩⟩ <;>
          rw [hl] at heq0 heq1 <;> simp [List.get?] at heq0 heq1
        subst heq0
        subst heq1
        exact ⟨x0, x1, r, rfl, rfl⟩

/-- Running the loop over an appended line list continues from the
state the first part succeeded with. -/
theorem parseLines_append (l1 : List String) :
    ∀ (c : Collection) (a : Album) (l2 : List String)
      (c1 : Collection) (a1 : Album),
      parseLines c a l1 = .ok c1 a1 →
      parseLines c a (l1 ++ l2) = parseLines c1 a1 l2 := by
  induction l1 with
  | nil =>
    intro c a l2 c1 a1 h
    simp only [parseLines] at h
    injection h with h1 h2
    subst h1
    subst h2
    rfl
  | cons line rest ih =>
    intro c a l2 c1 a1 h
    rw [List.cons_append]
    simp only [parseLines] at h ⊢
    split at h
    · rename_i c' a' heq
      exact ih c' a' l2 c1 a1 h
    · exact absurd h (by simp)
    · exact absurd h (by simp)

/-- A successful run over an appended line list passes through a
successful intermediate state. -/
theorem parseLines_append_inv (l1 : List String) :
    ∀ (c : Collection) (a : Album) (l2 : List String)
      (cF : Collection) (aF : Album),
      parseLines c a (l1 ++ l2) = .ok cF aF →
      ∃ c1 a1, parseLines c a l1 = .ok c1 a1
        ∧ parseLines c1 a1 l2 = .ok cF aF := by
  induction l1 with
  | nil =>
    intro c a l2 cF aF h
    exact ⟨c, a, rfl, h⟩
  | cons line rest ih =>
    intro c a l2 cF aF h
    rw [List.cons_append] at h
    simp only [parseLines] at h
    split at h
    · rename_i c' a' heq
      obtain ⟨c1, a1, h1, h2⟩ := ih c' a' l2 cF aF h
      refine ⟨c1, a1, ?_, h2⟩
      simp only [parseLines, heq]
      exact h1
    · exact absurd h (by simp)
    · exact absurd h (by simp)

/-- A successful run over track lines only never touches the
collection and preserves the accumulator's name and artist. -/
theorem parseLines_tracks (ls : List String) :
    ∀ (c : Collection) (a : Album) (c2 : Collection) (a2 : Album),
      (∀ l ∈ ls, isTrackLine l = true) →
      parseLines c a ls = .ok c2 a2 →
      c2 = c ∧ a2.name = a.name ∧ a2.artist = a.artist := by
  induction ls with
  | nil =>
    intro c a c2 a2 _ h
    simp only [parseLines] at h
    injection h with h1 h2
    subst h1
    subst h2
    exact ⟨rfl, rfl, rfl⟩
  | cons line rest ih =>
    intro c a c2 a2 hall h
    simp only [parseLines] at h
    split at h
    · rename_i c' a' heq
      obtain ⟨hc, hn, ha⟩ :=
        parseStep_track_inv c a line c' a' (hall line (by simp)) heq
      obtain ⟨hc2, hn2, ha2⟩ :=
        ih c' a' c2 a2 (fun l hl => hall l (by simp [hl])) h
      exact ⟨by rw [hc2, hc], by rw [hn2, hn], by rw [ha2, ha]⟩
    · exact absurd h (by simp)
    · exact absurd h (by simp)

/-- A successful step preserves the count-equals-number-of-albums
invariant. -/
theorem parseStep_inv_length (c : Collection) (a : Album) (line : String)
    (c2 : Collection) (a2 : Album)
    (hlen : c.length = c.albums.length)
    (h : parseStep c a line = .ok c2 a2) :
    c2.length = c2.albums.length := by
  by_cases ht : isTrackLine line = true
  · obtain ⟨hc, _, _⟩ := parseStep_track_inv c a line c2 a2 ht h
    rw [hc]
    exact hlen
  · have hh : isTrackLine line = false := by
      revert ht; cases isTrackLine line <;> simp
    obtain ⟨hadd, _⟩ := parseStep_header_inv c a line c2 a2 hh h
    obtain ⟨halb, hlen2⟩ := Collection.add_eq_some c a c2 hadd
    rw [hlen2, halb]
    simp [hlen]

/-- A successful run of the loop preserves the
count-equals-number-of-albums invariant. -/
theorem parseLines_inv_length (ls : List String) :
    ∀ (c : Collection) (a : Album) (c2 : Collection) (a2 : Album),
      c.length = c.albums.length →
      parseLines c a ls = .ok c2 a2 →
      c2.length = c2.albums.length := by
  induction ls with
  | nil =>
    intro c a c2 a2 hlen h
    simp only [parseLines] at h
    injection h with h1 h2
    subst h1
    exact hlen
  | cons line rest ih =>
    intro c a c2 a2 hlen h
    simp only [parseLines] at h
    split at h
    · rename_i c' a' heq
      exact ih c' a' c2 a2 (parseStep_inv_length c a line c' a' hlen heq) h
    · exact absurd h (by simp)
    · exact absurd h (by simp)

/-! ## Claim theorems -/

/-- Claim C1: for an input whose final header line is followed only by
(successfully parsed) track lines, the parse never commits the
accumulator built from that last header line: the final collection is
exactly the collection as it stood right after that header line
committed the *previous* accumulator, the last header's album lives
only in the (dropped) accumulator, and — its name being fresh — it is
absent from the collection, so no end-of-input flush occurs. -/
theorem parseFile_no_final_flush
    (c0 cMid cF : Collection) (aMid aF : Album)
    (pre tracks : List String) (hdr : String)
    (art nm : String) (rest : List String)
    (hhdr : isTrackLine hdr = false)
    (htracks : ∀ l ∈ tracks, isTrackLine l = true)
    (hsplit : splitHeader hdr = art :: nm :: rest)
    (hpre : parseLines c0 (Album.new "DEFAULT" "DEFALT") pre = .ok cMid aMid)
    (hall : Collection.parseFile c0 (pre ++ hdr :: tracks) = .ok cF aF)
    (hfresh : ∀ b ∈ cMid.albums ++ [aMid], b.name ≠ nm) :
    cF.albums = cMid.albums ++ [aMid]
    ∧ aF.name = nm ∧ aF.artist = art
    ∧ cF.find_album nm = .error .not_found := by
  unfold Collection.parseFile at hall
  rw [parseLines_append pre _ _ _ _ _ hpre] at hall
  simp only [parseLines] at hall
  split at hall
  · rename_i c' a' heq
    obtain ⟨hadd, art', nm', rest', hs', ha'⟩ :=
      parseStep_header_inv cMid aMid hdr c' a' hhdr heq
    rw [hsplit] at hs'
    injection hs' with e1 e2
    injection e2 with e2 e3
    subst e1
    subst e2
    obtain ⟨halb, hlen⟩ := Collection.add_eq_some cMid aMid c' hadd
    obtain ⟨hc, hn, hart⟩ := parseLines_tracks tracks c' a' cF aF htracks hall
    subst ha'
    refine ⟨by rw [hc, halb], by rw [hn]; rfl, by rw [hart]; rfl, ?_⟩
    unfold Collection.find_album
    apply findAlbumIn_not_found
    intro b hb
    rw [hc, halb] at hb
    exact hfresh b hb
  · exact absurd hall (by simp)
  · exact absurd hall (by simp)

/-- Witness for C1 on a concrete two-line input. -/
theorem parseFile_no_final_flush_witness :
    (isTrackLine "A : X" = false)
    ∧ (∀ l ∈ ["0:0:1 - S"], isTrackLine l = true)
    ∧ splitHeader "A : X" = "A" :: "X" :: []
    ∧ parseLines Collection.new (Album.new "DEFAULT" "DEFALT") [] =
        .ok Collection.new (Album.new "DEFAULT" "DEFALT")
    ∧ Collection.parseFile Collection.new ([] ++ "A : X" :: ["0:0:1 - S"]) =
        .ok { length := 1, albums := [Album.new "DEFAULT" "DEFALT"] }
          { name := "X", artist := "A", songs := [Song.new "S" "DEFALT" 1] }
    ∧ (∀ b ∈ Collection.new.albums ++ [Album.new "DEFAULT" "DEFALT"],
        b.name ≠ "X")
    ∧ ({ length := 1, albums := [Album.new "DEFAULT" "DEFALT"] }
        : Collection).albums = Collection.new.albums ++
          [Album.new "DEFAULT" "DEFALT"]
    ∧ ({ name := "X", artist := "A", songs := [Song.new "S" "DEFALT" 1] }
        : Album).name = "X"
    ∧ Collection.find_album
        { length := 1, albums := [Album.new "DEFAULT" "DEFALT"] } "X" =
        .error .not_found :=
  ⟨by decide, by decide, by decide, by decide, by decide, by decide,
    (parseFile_no_final_flush Collection.new Collection.new
      { length := 1, albums := [Album.new "DEFAULT" "DEFALT"] }
      (Album.new "DEFAULT" "DEFALT")
      { name := "X", artist := "A", songs := [Song.new "S" "DEFALT" 1] }
      [] ["0:0:1 - S"] "A : X" "A" "X" [] (by decide) (by decide) (by decide)
      (by decide) (by decide) (by decide)).1,
    (parseFile_no_final_flush Collection.new Collection.new
      { length := 1, albums := [Album.new "DEFAULT" "DEFALT"] }
      (Album.new "DEFAULT" "DEFALT")
      { name := "X", artist := "A", songs := [Song.new "S" "DEFALT" 1] }
      [] ["0:0:1 - S"] "A : X" "A" "X" [] (by decide) (by decide) (by decide)
      (by decide) (by decide) (by decide)).2.1,
    (parseFile_no_final_flush Collection.new Collection.new
      { length := 1, albums := [Album.new "DEFAULT" "DEFALT"] }
      (Album.new "DEFAULT" "DEFALT")
      { name := "X", artist := "A", songs := [Song.new "S" "DEFALT" 1] }
      [] ["0:0:1 - S"] "A : X" "A" "X" [] (by decide) (by decide) (by decide)
      (by decide) (by decide) (by decide)).2.2.2⟩

/-- Claim C2: on every header line (a line not matching `" - "`), the
parser first commits the current accumulator — whatever it is — via
`Collection.add`, then splits the line on `" : "` (artist before the
separator, album name after) and replaces the accumulator with a
fresh, song-less album built from those two pieces.  In particular,
for an input beginning with a header line, the album committed by
that first line is the untouched sentinel `Album::new("DEFAULT",
"DEFALT")`. -/
theorem parseStep_header_commit_and_reset :
    (∀ (c : Collection) (a : Album) (line : String) (c2 : Collection)
       (art nm : String) (rest : List String),
       isTrackLine line = false →
       splitHeader line = art :: nm :: rest →
       c.add a = some c2 →
       parseStep c a line = .ok c2 (Album.new nm art)
         ∧ c2.albums = c.albums ++ [a]
         ∧ (Album.new nm art).songs = [])
    ∧ (∀ (c0 : Collection) (line : String) (rest0 : List String)
         (art nm : String) (r2 : List String),
       isTrackLine line = false →
       splitHeader line = art :: nm :: r2 →
       c0.length + 1 ≤ 65535 →
       Collection.parseFile c0 (line :: rest0) =
         parseLines
           { length := c0.length + 1,
             albums := c0.albums ++ [Album.new "DEFAULT" "DEFALT"] }
           (Album.new nm art) rest0) := by
  constructor
  · intro c a line c2 art nm rest hl hs hadd
    exact ⟨parseStep_header c a line c2 art nm rest hl hs hadd,
      (Collection.add_eq_some c a c2 hadd).1, rfl⟩
  · intro c0 line rest0 art nm r2 hl hs hle
    unfold Collection.parseFile
    have hadd := Collection.add_of_le c0 (Album.new "DEFAULT" "DEFALT") hle
    have hstep := parseStep_header c0 (Album.new "DEFAULT" "DEFALT") line _
      art nm r2 hl hs hadd
    simp only [parseLines, hstep]

/-- Witness for C2 on a concrete header line. -/
theorem parseStep_header_commit_and_reset_witness :
    parseStep Collection.new (Album.new "B" "C") "A : X" =
      .ok { length := 1, albums := [Album.new "B" "C"] } (Album.new "X" "A")
    ∧ Collection.parseFile Collection.new ["A : X"] =
        parseLines { length := 1, albums := [Album.new "DEFAULT" "DEFALT"] }
          (Album.new "X" "A") [] :=
  ⟨(parseStep_header_commit_and_reset.1 Collection.new (Album.new "B" "C")
      "A : X" { length := 1, albums := [Album.new "B" "C"] } "A" "X" []
      (by decide) (by decide) (by decide)).1,
    parseStep_header_commit_and_reset.2 Collection.new "A : X" [] "A" "X" []
      (by decide) (by decide) (by decide)⟩

/-- Claim C3: for every value representable in the `u16` duration
type, formatting with `to_timestamp` and parsing back with
`to_seconds` round-trips. -/
theorem roundtrip_to_seconds_to_timestamp (x : Nat) (hx : x ≤ 65535) :
    to_seconds (to_timestamp x) = some x :=
  to_seconds_to_timestamp x hx

/-- Witness for C3 at a concrete duration. -/
theorem roundtrip_to_seconds_to_timestamp_witness :
    3661 ≤ 65535 ∧ to_seconds (to_timestamp 3661) = some 3661 :=
  ⟨by decide, roundtrip_to_seconds_to_timestamp 3661 (by decide)⟩

/-- Claim C4 (counterexample): the claim says `to_seconds` fails
whenever the field count is not exactly 3; but on the four-field
input `"1:2:3:4"` the source succeeds, ignoring the fourth field. -/
theorem to_seconds_four_fields_ok : to_seconds "1:2:3:4" = some 3723 := by
  decide

/-- Witness for the C4 characterization at a concrete input. -/
theorem to_seconds_eq_some_iff_witness :
    to_seconds "0:1:20" = some 80
    ∧ (∃ v0 v1 v2 rest h m s,
        splitColon "0:1:20" = v0 :: v1 :: v2 :: rest
        ∧ parseU16 v0 = some h ∧ parseU16 v1 = some m ∧ parseU16 v2 = some s
        ∧ h * 3600 + m * 60 + s ≤ 65535
        ∧ 80 = h * 3600 + m * 60 + s) :=
  ⟨by decide, (to_seconds_eq_some_iff "0:1:20" 80).mp (by decide)⟩

/-- Claim C5: the `length` field mirrors the number of albums:
`Collection::new` starts at `0` with no albums, every successful
`Collection::add` appends exactly one album and increments `length`
by exactly one, and the `length = albums.length` invariant is
preserved by `add` and by every successful run of the parse loop. -/
theorem collection_count_invariant :
    (Collection.new.length = 0 ∧ Collection.new.albums = [])
    ∧ (∀ (c : Collection) (x : Album) (c2 : Collection),
        c.add x = some c2 →
        c2.albums = c.albums ++ [x] ∧ c2.length = c.length + 1)
    ∧ (∀ (c : Collection) (x : Album) (c2 : Collection),
        c.length = c.albums.length → c.add x = some c2 →
        c2.length = c2.albums.length)
    ∧ (∀ (c : Collection) (a : Album) (ls : List String)
        (c2 : Collection) (a2 : Album),
        c.length = c.albums.length →
        parseLines c a ls = .ok c2 a2 →
        c2.length = c2.albums.length) := by
  refine ⟨⟨rfl, rfl⟩, fun c x c2 h => Collection.add_eq_some c x c2 h, ?_, ?_⟩
  · intro c x c2 hinv hadd
    obtain ⟨ha, hl⟩ := Collection.add_eq_some c x c2 hadd
    rw [hl, ha]
    simp [hinv]
  · intro c a ls c2 a2 hinv h
    exact parseLines_inv_length ls c a c2 a2 hinv h

/-- Witness for C5 on a concrete add. -/
theorem collection_count_invariant_witness :
    ({ length := 1, albums := [Album.new "A" "B"] } : Collection).albums =
      Collection.new.albums ++ [Album.new "A" "B"]
    ∧ ({ length := 1, albums := [Album.new "A" "B"] } : Collection).length =
      Collection.new.length + 1 :=
  collection_count_invariant.2.1 Collection.new (Album.new "A" "B")
    { length := 1, albums := [Album.new "A" "B"] } (by decide)

/-- Claim C6 (counterexample): a header line missing the `" : "`
separator makes the parse abort by panicking (out-of-bounds index on
the split), not by returning a `FormatError` — the source's parse has
no error return at all. -/
theorem parse_malformed_header_not_formatError :
    Collection.parseFile Collection.new ["NoSeparatorHere"] =
      .panicked { length := 1, albums := [Album.new "DEFAULT" "DEFALT"] }
    ∧ Collection.parseFile Collection.new ["NoSeparatorHere"] ≠
        .formatError :=
  ⟨by decide, by decide⟩

/-- Claim C6 (amended): a header line missing the `" : "` separator
aborts the entire parse with a panic (never a `FormatError`, which no
code path produces): the remaining lines are not processed, and no
album built from the malformed line is added — the collection at the
panic contains exactly the previously committed albums plus the
previous accumulator, which is committed just before the panic. -/
theorem parse_malformed_header_aborts
    (c c2 : Collection) (a : Album) (line w : String) (rest : List String)
    (hline : isTrackLine line = false)
    (hsplit : splitHeader line = [w])
    (hadd : c.add a = some c2) :
    parseLines c a (line :: rest) = .panicked c2
    ∧ c2.albums = c.albums ++ [a]
    ∧ parseLines c a (line :: rest) ≠ .formatError := by
  have hstep : parseStep c a line = .panicked c2 := by
    simp [parseStep, hline, hadd, hsplit, List.get?]
  refine ⟨?_, (Collection.add_eq_some c a c2 hadd).1, ?_⟩
  · simp only [parseLines, hstep]
  · simp only [parseLines, hstep]
    simp

/-- Witness for the amended C6 on a concrete malformed header with a
line after it. -/
theorem parse_malformed_header_aborts_witness :
    parseLines Collection.new (Album.new "DEFAULT" "DEFALT")
      ["NoSeparatorHere", "A : X"] =
      .panicked { length := 1, albums := [Album.new "DEFAULT" "DEFALT"] }
    ∧ ({ length := 1, albums := [Album.new "DEFAULT" "DEFALT"] }
        : Collection).albums =
      Collection.new.albums ++ [Album.new "DEFAULT" "DEFALT"]
    ∧ parseLines Collection.new (Album.new "DEFAULT" "DEFALT")
        ["NoSeparatorHere", "A : X"] ≠ .formatError :=
  parse_malformed_header_aborts Collection.new
    { length := 1, albums := [Album.new "DEFAULT" "DEFALT"] }
    (Album.new "DEFAULT" "DEFALT") "NoSeparatorHere" "NoSeparatorHere"
    ["A : X"] (by decide) (by decide) (by decide)

/-- Claim C7: `find_album` scans the albums in insertion order and
returns the first exact (case-sensitive) name match; on an empty
collection, or whenever no album carries the queried name, it
reports `not_found`; with duplicate names it returns the
earlier-inserted album. -/
theorem find_album_first_match_spec :
    (∀ name : String, Collection.new.find_album name = .error .not_found)
    ∧ (∀ (c : Collection) (name : String),
        (∀ b ∈ c.albums, b.name ≠ name) →
        c.find_album name = .error .not_found)
    ∧ (∀ (c : Collection) (name : String) (pre : List Album) (x : Album)
        (post : List Album),
        c.albums = pre ++ x :: post →
        (∀ b ∈ pre, b.name ≠ name) →
        x.name = name →
        c.find_album name = .ok x) := by
  refine ⟨fun name => rfl, ?_, ?_⟩
  · intro c name h
    exact findAlbumIn_not_found name c.albums h
  · intro c name pre x post hc hpre hx
    unfold Collection.find_album
    rw [hc]
    exact findAlbumIn_first name pre x post hpre hx

/-- Witness for C7: two albums share a name; the first is returned. -/
theorem find_album_first_match_spec_witness :
    Collection.find_album
      { length := 2, albums := [Album.new "X" "A", Album.new "X" "B"] } "X" =
      .ok (Album.new "X" "A") :=
  find_album_first_match_spec.2.2
    { length := 2, albums := [Album.new "X" "A", Album.new "X" "B"] } "X"
    [] (Album.new "X" "A") [Album.new "X" "B"] rfl (by simp) rfl

/-- Claim C8: parsing the documented Hendrix example (header, two
track lines, one further header to trigger the commit) yields a
collection whose only album named "Are You Experienced?" has artist
"Jimi Hendrix Experience" and exactly the two songs in track order,
the first being "Foxy Lady" at 202 seconds. -/
theorem parse_hendrix_example :
    Collection.parseFile Collection.new hendrixLines =
      .ok hendrixCollection (Album.new "Axis" "The Jimi Hendrix Experience")
    ∧ List.countP (fun alb => alb.name == "Are You Experienced?")
        hendrixCollection.albums = 1
    ∧ hendrixCollection.find_album "Are You Experienced?" = .ok hendrixAlbum
    ∧ hendrixAlbum.artist = "Jimi Hendrix Experience"
    ∧ hendrixAlbum.songs = [Song.new "Foxy Lady" "DEFALT" 202,
        Song.new "Manic Depression" "DEFALT" 226] :=
  ⟨by decide, by decide, by decide, rfl, rfl⟩

/-- Claim C9: for every `u16` value, the formatted timestamp consists
of exactly three `':'`-separated nonempty plain-decimal fields, with
minutes and seconds below 60 and hours at most 18, and the output is
itself an input `to_seconds` accepts. -/
theorem to_timestamp_wellformed (x : Nat) (hx : x ≤ 65535) :
    ∃ hs ms ss : String,
      splitColon (to_timestamp x) = [hs, ms, ss]
      ∧ hs.data ≠ [] ∧ hs.data.all Char.isDigit = true
      ∧ ms.data ≠ [] ∧ ms.data.all Char.isDigit = true
      ∧ ss.data ≠ [] ∧ ss.data.all Char.isDigit = true
      ∧ (∃ h, parseU16 hs = some h ∧ h ≤ 18)
      ∧ (∃ m, parseU16 ms = some m ∧ m < 60)
      ∧ (∃ s, parseU16 ss = some s ∧ s < 60)
      ∧ (∃ n, to_seconds (to_timestamp x) = some n) := by
  refine ⟨String.mk (decChars (x / 3600)), String.mk (decChars (x % 3600 / 60)),
    String.mk (decChars (x % 3600 % 60)), splitColon_timestamp x,
    (decChars_props _).1, ?_, (decChars_props _).1, ?_,
    (decChars_props _).1, ?_,
    ⟨x / 3600, parseU16_decChars _ (by omega), by omega⟩,
    ⟨x % 3600 / 60, parseU16_decChars _ (by omega), by omega⟩,
    ⟨x % 3600 % 60, parseU16_decChars _ (by omega), by omega⟩,
    ⟨x, to_seconds_to_timestamp x hx⟩⟩
  all_goals exact List.all_eq_true.mpr fun c hc => ((decChars_props _).2 c hc).1

/-- Witness for C9 at a concrete duration. -/
theorem to_timestamp_wellformed_witness :
    202 ≤ 65535
    ∧ (∃ hs ms ss : String,
        splitColon (to_timestamp 202) = [hs, ms, ss]
        ∧ hs.data ≠ [] ∧ hs.data.all Char.isDigit = true
        ∧ ms.data ≠ [] ∧ ms.data.all Char.isDigit = true
        ∧ ss.data ≠ [] ∧ ss.data.all Char.isDigit = true
        ∧ (∃ h, parseU16 hs = some h ∧ h ≤ 18)
        ∧ (∃ m, parseU16 ms = some m ∧ m < 60)
        ∧ (∃ s, parseU16 ss = some s ∧ s < 60)
        ∧ (∃ n, to_seconds (to_timestamp 202) = some n)) :=
  ⟨by decide, to_timestamp_wellformed 202 (by decide)⟩

/-- Claim C10: a track line containing the `\s-\s` separator more
than once is not an error: the split yields three or more pieces, the
first is the duration, only the second becomes the song's name, and
everything after the second piece is silently discarded. -/
theorem parse_track_extra_separators
    (c : Collection) (a : Album) (line : String)
    (dur nm extra : String) (rest : List String) (len : Nat)
    (htrack : isTrackLine line = true)
    (hsplit : splitTrack line = dur :: nm :: extra :: rest)
    (hdur : to_seconds dur = some len) :
    parseStep c a line = .ok c (a.add (Song.new nm "DEFALT" len)) :=
  parseStep_track c a line dur nm (extra :: rest) len htrack hsplit hdur

/-- Witness for C10: `"0:03:22 - Foo - Bar"` yields the song named
`"Foo"`, with `" - Bar"` discarded and no error. -/
theorem parse_track_extra_separators_witness :
    isTrackLine "0:03:22 - Foo - Bar" = true
    ∧ splitTrack "0:03:22 - Foo - Bar" = ["0:03:22", "Foo", "Bar"]
    ∧ to_seconds "0:03:22" = some 202
    ∧ parseStep Collection.new (Album.new "N" "A") "0:03:22 - Foo - Bar" =
        .ok Collection.new
          ((Album.new "N" "A").add (Song.new "Foo" "DEFALT" 202)) :=
  ⟨by decide, by decide, by decide,
    parse_track_extra_separators Collection.new (Album.new "N" "A")
      "0:03:22 - Foo - Bar" "0:03:22" "Foo" "Bar" [] 202
      (by decide) (by decide) (by decide)⟩
